import Mathlib

/-!
Verification development for the iphone_track repository.

The definitions below are a shallow embedding of the client-side
tracking/playback engine found in `static/js/app.js` and
`static/js/map.js`:

* geodesic math (`haversineDistance` from app.js, `_haversineJs` from
  map.js, written here as `haversineJs`),
* the history log with cumulative statistics
  (`addPointsToHistory`, `initializeHistoryFromPoints`),
* history scrubbing (`navigateHistory`, `exitHistoryMode`),
* the live poll loop with its single-flight guard (`pollLiveData`),
* the segment-by-segment playback engine of map.js
  (`stepForward`, `stepBack`, `_fireProgress`, `addBasicLayerAnimated`).

JavaScript numbers are modelled by real numbers (`ℝ`) for coordinates
and distances and by integers (`ℤ`) / naturals (`ℕ`) where the program
only ever holds integral values (epoch-second timestamps, indices,
counters, millisecond delays).  DOM updates, map rendering calls and
wake-lock management are external collaborators and are not part of the
state; rendered polylines are modelled by unique natural-number handles
so that removing a rendered path (`polyline.setMap(null)` plus the
`indexOf`/`splice` bookkeeping) can be expressed exactly.
-/

namespace IphoneTrack

/-- A GPS point `{lat, lng, tst}` as delivered by the server; `tst` is an
epoch-seconds timestamp. -/
structure Point where
  lat : ℝ
  lng : ℝ
  tst : ℤ

instance : Inhabited Point := ⟨⟨0, 0, 0⟩⟩

/-- JavaScript `Math.atan2 y x`, written out branch by branch.  For the
arguments produced by the haversine formula only the `0 ≤ y` cases are
ever reached. -/
noncomputable def atan2 (y x : ℝ) : ℝ :=
  if 0 < x then Real.arctan (y / x)
  else if x < 0 then
    (if 0 ≤ y then Real.arctan (y / x) + Real.pi else Real.arctan (y / x) - Real.pi)
  else
    (if 0 < y then Real.pi / 2 else if y < 0 then -(Real.pi / 2) else 0)

/-- Great-circle distance in km on a sphere of radius 6371 km;
`haversineDistance` from app.js (no road factor, no noise floor). -/
noncomputable def haversineDistance (lat1 lng1 lat2 lng2 : ℝ) : ℝ :=
  let R : ℝ := 6371
  let dLat := (lat2 - lat1) * Real.pi / 180
  let dLng := (lng2 - lng1) * Real.pi / 180
  let a := Real.sin (dLat / 2) * Real.sin (dLat / 2) +
    Real.cos (lat1 * Real.pi / 180) * Real.cos (lat2 * Real.pi / 180) *
    Real.sin (dLng / 2) * Real.sin (dLng / 2)
  let c := 2 * atan2 (Real.sqrt a) (Real.sqrt (1 - a))
  R * c

/-- The raw `d` value computed inside map.js `_haversineJs` (written
there as `R * 2 * Math.atan2(...)`, an association-variant of the
`R * c` of app.js `haversineDistance`). -/
noncomputable def haversineJsRaw (lat1 lon1 lat2 lon2 : ℝ) : ℝ :=
  let R : ℝ := 6371
  let dLat := (lat2 - lat1) * Real.pi / 180
  let dLon := (lon2 - lon1) * Real.pi / 180
  let a := Real.sin (dLat / 2) * Real.sin (dLat / 2) +
    Real.cos (lat1 * Real.pi / 180) * Real.cos (lat2 * Real.pi / 180) *
    Real.sin (dLon / 2) * Real.sin (dLon / 2)
  R * 2 * atan2 (Real.sqrt a) (Real.sqrt (1 - a))

/-- The `_haversineJs` helper of map.js: the great-circle formula
followed by the 0.01 km noise floor and the 1.05 road-distortion
factor. -/
noncomputable def haversineJs (lat1 lon1 lat2 lon2 : ℝ) : ℝ :=
  if haversineJsRaw lat1 lon1 lat2 lon2 ≥ 0.01 then
    haversineJsRaw lat1 lon1 lat2 lon2 * 1.05
  else 0

/-- The spec's `adjustedSegmentDistance(a, b)` on two GPS points; in the
code this is exactly map.js `_haversineJs` applied to the coordinate
pairs (the same rule appears inline in app.js `addPointsToHistory`). -/
noncomputable def adjustedSegmentDistance (a b : Point) : ℝ :=
  haversineJs a.lat a.lng b.lat b.lng

/-- Cumulative statistics entry, one per history point
(`historyCumulativeStats` in app.js). -/
structure CumStat where
  tst : ℤ
  distance : ℝ
  duration : ℤ
  pointCount : ℕ

instance : Inhabited CumStat := ⟨⟨0, 0, 0, 0⟩⟩

/-- Per-activity-type counters (`{car, bike, other}` objects in
app.js). -/
structure RideCounts where
  car : ℕ
  bike : ℕ
  other : ℕ

/-- Per-type statistics of a poll response (`data.stats.car` etc.). -/
structure TypeStats where
  count : ℕ
  total_points : ℕ

/-- The `stats` object of a poll response; each activity type may be
absent. -/
structure PollStats where
  car : Option TypeStats
  bike : Option TypeStats
  other : Option TypeStats

/-- A decoded `/api/live/poll` response body.  A missing
`points_to_draw` field behaves exactly like an empty list in the code
(`data.points_to_draw && data.points_to_draw.length > 0`), so it is
modelled as a plain list. -/
structure PollResponse where
  success : Bool
  stats : Option PollStats
  points_to_draw : List Point

/-- The module-level mutable state of the live-session controller and
history navigator in app.js. -/
structure LiveState where
  pollInProgress : Bool
  lastDrawnTimestamp : ℤ
  liveData : Option PollResponse
  liveRideCounts : RideCounts
  liveRidePoints : RideCounts
  historyModeActive : Bool
  historyViewIndex : ℤ
  historyPoints : List Point
  historyCumulativeStats : List CumStat

/-- The cumulative stat computed by one iteration of the
`addPointsToHistory(newPoints)` loop: `hp` is `historyPoints` right
after the push of `point`, `stats` the stats array before its own push
(so `pointIndex` entries long).  For `pointIndex > 0` the distance
extends the previous entry by the 0.01 km-floored, 1.05-scaled segment
distance and the duration is taken from the log's first point. -/
noncomputable def nextCumStat (hp : List Point) (stats : List CumStat) (point : Point) :
    CumStat :=
  let pointIndex := hp.length - 1
  if 0 < pointIndex then
    let prevStat := stats.getD (pointIndex - 1) default
    let prevPoint := hp.getD (pointIndex - 1) default
    let segmentDist := haversineDistance prevPoint.lat prevPoint.lng point.lat point.lng
    let cumulativeDistance :=
      if segmentDist ≥ 0.01 then prevStat.distance + segmentDist * 1.05
      else prevStat.distance
    let duration := point.tst - (hp.getD 0 default).tst
    ⟨point.tst, cumulativeDistance, duration, pointIndex + 1⟩
  else ⟨point.tst, 0, 0, pointIndex + 1⟩

/-- The `addPointsToHistory(newPoints)` loop of app.js: push each point,
then compute and push its cumulative stat (`nextCumStat`). -/
noncomputable def addPointsToHistory : LiveState → List Point → LiveState
  | s, [] => s
  | s, point :: rest =>
    addPointsToHistory
      { s with historyPoints := s.historyPoints ++ [point],
               historyCumulativeStats := s.historyCumulativeStats ++
                 [nextCumStat (s.historyPoints ++ [point]) s.historyCumulativeStats point] }
      rest

/-- The stats built by the `i > 0` iterations of the
`initializeHistoryFromPoints` loop: `first` is `points[0]`, `i` the
current loop index, `prev` the previous point and `cum` the cumulative
distance accumulator. -/
noncomputable def initStatsAux (first : Point) : ℕ → Point → ℝ → List Point → List CumStat
  | _, _, _, [] => []
  | i, prev, cum, point :: rest =>
    let segmentDist := haversineDistance prev.lat prev.lng point.lat point.lng
    let cum' := if segmentDist ≥ 0.01 then cum + segmentDist * 1.05 else cum
    ⟨point.tst, cum', point.tst - first.tst, i + 1⟩ :: initStatsAux first (i + 1) point cum' rest

/-- `initializeHistoryFromPoints(points)` of app.js: reset the history
arrays and scrub flags, then rebuild log and stats in one pass. -/
noncomputable def initializeHistoryFromPoints (s : LiveState) (points : List Point) : LiveState :=
  match points with
  | [] =>
    { s with historyPoints := [], historyCumulativeStats := [],
             historyModeActive := false, historyViewIndex := -1 }
  | first :: rest =>
    { s with historyPoints := first :: rest,
             historyCumulativeStats := ⟨first.tst, 0, 0, 1⟩ :: initStatsAux first 1 first 0 rest,
             historyModeActive := false, historyViewIndex := -1 }

/-- `exitHistoryMode()` of app.js, restricted to the tracked state (the
polyline restore, marker removal and panning act on the map
collaborator only). -/
def exitHistoryMode (s : LiveState) : LiveState :=
  { s with historyModeActive := false, historyViewIndex := -1 }

/-- `navigateHistory(delta)` of app.js: enter scrub mode anchored at the
tail if needed, apply the delta, clamp below at 0, and exit scrub mode
if the index reached past the last point. -/
def navigateHistory (s : LiveState) (delta : ℤ) : LiveState :=
  let totalPoints := s.historyPoints.length
  if totalPoints = 0 then s
  else
    let s1 :=
      if s.historyModeActive then s
      else { s with historyModeActive := true, historyViewIndex := (totalPoints : ℤ) - 1 }
    let idx := s1.historyViewIndex + delta
    let clamped := if idx < 0 then 0 else idx
    if clamped ≥ (totalPoints : ℤ) then exitHistoryMode s1
    else { s1 with historyViewIndex := clamped }

/-- Outcome of the single network round-trip a running poll performs:
either the transport fails (the `.catch` path) or a decoded response
arrives. -/
inductive PollOutcome
  | transportError
  | response (data : PollResponse)

/-- The `(data.stats && data.stats.X) ? data.stats.X.f : 0` access
pattern of `pollLiveData`. -/
def statField (st : Option PollStats) (sel : PollStats → Option TypeStats)
    (f : TypeStats → ℕ) : ℕ :=
  match st with
  | none => 0
  | some ps =>
    match sel ps with
    | none => 0
    | some t => f t

/-- `pollLiveData()` of app.js as an atomic transaction: the returned
number counts the network requests issued (the poll `fetch` plus the
per-type refetches of `refreshLiveActivityLayers` when ride or point
counters changed).  The early single-flight return performs no request
and no state change; every completed branch leaves `pollInProgress`
false. -/
noncomputable def pollLiveData (s : LiveState) (outcome : PollOutcome) : LiveState × ℕ :=
  if s.pollInProgress then (s, 0)
  else
    match outcome with
    | .transportError => ({ s with pollInProgress := false }, 1)
    | .response data =>
      if data.success = false then ({ s with pollInProgress := false }, 1)
      else
        let s1 := { s with pollInProgress := false, liveData := some data }
        let newCarCount := statField data.stats (fun ps => ps.car) (fun t => t.count)
        let newBikeCount := statField data.stats (fun ps => ps.bike) (fun t => t.count)
        let newOtherCount := statField data.stats (fun ps => ps.other) (fun t => t.count)
        let newCarPoints := statField data.stats (fun ps => ps.car) (fun t => t.total_points)
        let newBikePoints := statField data.stats (fun ps => ps.bike) (fun t => t.total_points)
        let newOtherPoints := statField data.stats (fun ps => ps.other) (fun t => t.total_points)
        let ridesChanged :=
          newCarCount ≠ s.liveRideCounts.car ∨ newBikeCount ≠ s.liveRideCounts.bike ∨
          newOtherCount ≠ s.liveRideCounts.other ∨ newCarPoints ≠ s.liveRidePoints.car ∨
          newBikePoints ≠ s.liveRidePoints.bike ∨ newOtherPoints ≠ s.liveRidePoints.other
        let s2 :=
          if ridesChanged then
            { s1 with liveRideCounts := ⟨newCarCount, newBikeCount, newOtherCount⟩,
                      liveRidePoints := ⟨newCarPoints, newBikePoints, newOtherPoints⟩ }
          else s1
        let refreshRequests :=
          if ridesChanged then
            (if 0 < newCarCount then 1 else 0) + (if 0 < newBikeCount then 1 else 0) +
            (if 0 < newOtherCount then 1 else 0)
          else 0
        if 0 < data.points_to_draw.length then
          let lastPoint := data.points_to_draw.getLast?.getD default
          (addPointsToHistory { s2 with lastDrawnTimestamp := lastPoint.tst }
            data.points_to_draw, 1 + refreshRequests)
        else (s2, 1 + refreshRequests)

/-- Net effect of a successful `loadLiveTrack` (app.js) on the tracked
state: when the fetched track is non-empty the history is rebuilt with
`initializeHistoryFromPoints` and, once drawing finishes, the watermark
is set to the `tst` of the last fetched point; an empty track changes
nothing. -/
noncomputable def loadLiveTrackSuccess (s : LiveState) (points : List Point) : LiveState :=
  if 0 < points.length then
    let s1 := initializeHistoryFromPoints s points
    { s1 with lastDrawnTimestamp := (points.getLast?.getD default).tst }
  else s

/-- Folding a sequence of poll outcomes through `pollLiveData`. -/
noncomputable def runPolls (s : LiveState) (outcomes : List PollOutcome) : LiveState :=
  outcomes.foldl (fun s o => (pollLiveData s o).1) s

/-- Hypothesis of C2 on a single poll round-trip: a successful response
only carries points strictly newer than the watermark that was sent,
in ascending `tst` order. -/
def GoodOutcome (s : LiveState) : PollOutcome → Prop
  | .transportError => True
  | .response data =>
    data.success = true →
      (∀ p ∈ data.points_to_draw, s.lastDrawnTimestamp < p.tst) ∧
      data.points_to_draw.Chain' (fun a b => a.tst < b.tst)

/-- `GoodOutcome` holding at every step along a trace of polls. -/
def GoodTrace : LiveState → List PollOutcome → Prop
  | _, [] => True
  | s, o :: rest => GoodOutcome s o ∧ GoodTrace (pollLiveData s o).1 rest

/-- The watermark invariant of the spec: whenever the history log is
non-empty, `lastDrawnTimestamp` equals the `tst` of its last point. -/
def WatermarkInv (s : LiveState) : Prop :=
  ∀ p ∈ s.historyPoints.getLast?, s.lastDrawnTimestamp = p.tst

/-- The navigation-cursor invariant of the spec: while scrub mode is
active the view index lies in `[0, len-1]`. -/
def NavInv (s : LiveState) : Prop :=
  s.historyModeActive = true →
    0 ≤ s.historyViewIndex ∧ s.historyViewIndex < (s.historyPoints.length : ℤ)

/-- The unclamped target index of a `navigateHistory(delta)` call: the
delta applied to the current view index, or to the tail index when
scrub mode is not yet active. -/
def seekTarget (s : LiveState) (delta : ℤ) : ℤ :=
  (if s.historyModeActive then s.historyViewIndex
   else (s.historyPoints.length : ℤ) - 1) + delta

/-- Index-wise monotonicity of the cumulative distances in a stats
array: `CumulativeStat[i].distance ≤ CumulativeStat[i+1].distance` for
every valid `i`. -/
def StatsMonotone (stats : List CumStat) : Prop :=
  ∀ i, i + 1 < stats.length →
    (stats.getD i default).distance ≤ (stats.getD (i + 1) default).distance

/-- A classified ride as used by the rich animation layers; only the
fields the playback engine reads are kept. -/
structure Ride where
  points : List Point

instance : Inhabited Ride := ⟨⟨[]⟩⟩

/-- One element of the flattened rich segment list: `{ride, idx}` with
`1 ≤ idx < ride.points.length`. -/
structure RichSeg where
  ride : Ride
  idx : ℕ

instance : Inhabited RichSeg := ⟨⟨default, 0⟩⟩

/-- The `animationSegments` variable of map.js: in rich mode an array of
`{ride, idx}` records, in basic mode the flat point array itself (the
`animationMode` string always agrees with the shape of this array, so
the two variables are modelled as one sum). -/
inductive AnimSegments
  | basic (points : List Point)
  | rich (segs : List RichSeg)

/-- `animationSegments.length`, the common bound used by
`_hasMoreSegments` and the two draw loops. -/
def AnimSegments.size : AnimSegments → ℕ
  | .basic points => points.length
  | .rich segs => segs.length

/-- One entry of `animationDrawnSegments`: the rendered polyline (a
unique handle), the adjusted distance it contributed, and the endpoint
drawn. -/
structure DrawnSeg where
  polyline : ℕ
  distance : ℝ
  lat : ℝ
  lng : ℝ
  tst : ℤ

/-- The module-level animation state of map.js.  `timerActive` models
`animationTimer != null`, `resumeStored` models
`animationResumeFunc != null`; `nextHandle` is a fresh-handle counter
standing in for allocation of `google.maps.Polyline` objects, and
`layerPaths` is the `animationLayer.paths` array of those handles. -/
structure EngineState where
  running : Bool
  paused : Bool
  timerActive : Bool
  resumeStored : Bool
  segments : AnimSegments
  currentIdx : ℕ
  runningDistance : ℝ
  drawnSegments : List DrawnSeg
  layerPaths : List ℕ
  nextHandle : ℕ
  firstTimestamp : ℤ
  delayMs : ℕ

/-- The two endpoints the next segment draw would connect:
`points[idx-1], points[idx]` in basic mode and
`ride.points[i-1], ride.points[i]` in rich mode; `none` when
`currentIdx` is past the end (both draw functions return without doing
anything in that case). -/
def segEndpoints (s : EngineState) : Option (Point × Point) :=
  match s.segments with
  | .basic points =>
    if s.currentIdx < points.length then
      some (points.getD (s.currentIdx - 1) default, points.getD s.currentIdx default)
    else none
  | .rich segs =>
    if s.currentIdx < segs.length then
      let seg := segs.getD s.currentIdx default
      some (seg.ride.points.getD (seg.idx - 1) default, seg.ride.points.getD seg.idx default)
    else none

/-- `_drawOneSegment()` (dispatching to `_drawOneRichSegment` or
`_drawOneBasicSegment`): allocate a polyline, push it onto the layer,
add the adjusted segment distance, record the undo entry, and advance
`animationCurrentIdx`.  Panning the map is a collaborator call with no
tracked state. -/
noncomputable def drawOneSegment (s : EngineState) : EngineState :=
  match segEndpoints s with
  | none => s
  | some (a, b) =>
    let segDist := haversineJs a.lat a.lng b.lat b.lng
    { s with
      layerPaths := s.layerPaths ++ [s.nextHandle],
      runningDistance := s.runningDistance + segDist,
      drawnSegments := s.drawnSegments ++ [⟨s.nextHandle, segDist, b.lat, b.lng, b.tst⟩],
      currentIdx := s.currentIdx + 1,
      nextHandle := s.nextHandle + 1 }

/-- `stepForward()` of map.js: only acts while paused and running with
more segments available; draws exactly one segment (progress reporting
and button updates have no tracked state). -/
noncomputable def stepForward (s : EngineState) : EngineState :=
  if !s.paused || !s.running then s
  else if s.currentIdx < s.segments.size then drawOneSegment s
  else s

/-- Removal of the first occurrence of a handle, the
`indexOf`/`splice(idx, 1)` pair in `stepBack`. -/
def removeFirstHandle : List ℕ → ℕ → List ℕ
  | [], _ => []
  | a :: rest, x => if a = x then rest else a :: removeFirstHandle rest x

/-- `stepBack()` of map.js: only acts while paused and running with at
least one drawn segment; pops the most recent undo entry, removes its
polyline from the layer, decrements the index and subtracts the entry's
distance, flooring the total at 0. -/
noncomputable def stepBack (s : EngineState) : EngineState :=
  if !s.paused || !s.running then s
  else
    match s.drawnSegments.getLast? with
    | none => s
    | some entry =>
      let rd := s.runningDistance - entry.distance
      { s with
        drawnSegments := s.drawnSegments.dropLast,
        layerPaths := removeFirstHandle s.layerPaths entry.polyline,
        currentIdx := s.currentIdx - 1,
        runningDistance := if rd < 0 then 0 else rd }

/-- The progress record passed to the `onAnimationProgress` observer. -/
structure Progress where
  distance : ℝ
  duration : ℤ
  speed : ℝ
  pointIndex : ℕ
  totalPoints : ℕ
  lat : ℝ
  lng : ℝ
  timestamp : ℤ

/-- `_fireProgress()` of map.js.  The rich and basic branches have
identical bodies, so the guard reduces to `animationDrawnSegments`
being non-empty; with no drawn segment the defaults
`lat = lng = tst = 0`, `elapsed = 0` (hence `speed = 0`) are
reported. -/
noncomputable def fireProgress (s : EngineState) : Progress :=
  let totalPts := s.segments.size
  match s.drawnSegments.getLast? with
  | some lastDrawn =>
    let elapsed := lastDrawn.tst - s.firstTimestamp
    let speed : ℝ := if 0 < elapsed then s.runningDistance / (elapsed : ℝ) * 3600 else 0
    ⟨s.runningDistance, elapsed, speed, s.currentIdx, totalPts,
      lastDrawn.lat, lastDrawn.lng, lastDrawn.tst⟩
  | none =>
    ⟨s.runningDistance, 0, 0, s.currentIdx, totalPts, 0, 0, 0⟩

/-- Animation speed constants of map.js. -/
def ANIMATION_MS_PER_POINT : ℕ := 200

/-- Cap on the total animation duration, in milliseconds. -/
def ANIMATION_MAX_TOTAL_MS : ℕ := 60000

/-- `_calcDelay(totalSegments)` of map.js (floor division on the
millisecond budget, floored at 10 ms). -/
def calcDelay (totalSegments : ℕ) : ℕ :=
  max (min (totalSegments * ANIMATION_MS_PER_POINT) ANIMATION_MAX_TOTAL_MS / totalSegments) 10

/-- Observable events of the animation loop: a segment draw
(`_drawOneSegment` followed by `_fireProgress`) or an invocation of the
completion callback. -/
inductive AnimEvent
  | drew
  | completed
deriving DecidableEq

/-- One invocation of the `drawNext` closure of
`addBasicLayerAnimated`/`addRichLayerAnimated`: while paused it stores
itself as the continuation; past the last segment it finishes the
animation and fires `onComplete`; otherwise it draws one segment and
re-arms the timer. -/
noncomputable def drawNext (s : EngineState) : EngineState × List AnimEvent :=
  if s.paused then ({ s with resumeStored := true }, [])
  else if s.segments.size ≤ s.currentIdx then
    ({ s with running := false, timerActive := false }, [.completed])
  else
    ({ drawOneSegment s with resumeStored := true, timerActive := true }, [.drew])

/-- The `setTimeout` chain: as long as a timer is armed, fire it (which
runs `drawNext` once); `fuel` bounds the number of ticks. -/
noncomputable def runTimer : ℕ → EngineState → EngineState × List AnimEvent
  | 0, s => (s, [])
  | fuel + 1, s =>
    if s.timerActive then
      let step := drawNext { s with timerActive := false }
      let rest := runTimer fuel step.1
      (rest.1, step.2 ++ rest.2)
    else (s, [])

/-- The module state installed by `addBasicLayerAnimated` just before
its first direct `drawNext()` call (non-empty `points`). -/
noncomputable def startBasicState (points : List Point) : EngineState :=
  { running := true, paused := false, timerActive := false, resumeStored := false,
    segments := .basic points, currentIdx := 1, runningDistance := 0,
    drawnSegments := [], layerPaths := [], nextHandle := 0,
    firstTimestamp := (points.getD 0 default).tst,
    delayMs := calcDelay points.length }

/-- `addBasicLayerAnimated` of map.js restricted to the tracked state:
on an empty point list the completion callback fires immediately and
the ambient engine state is untouched; otherwise the animation state is
installed, `drawNext` runs once synchronously and the timer chain takes
over (run here until `fuel` ticks). -/
noncomputable def addBasicLayerAnimated (s0 : EngineState) (points : List Point)
    (fuel : ℕ) : EngineState × List AnimEvent :=
  if points.length = 0 then (s0, [.completed])
  else
    let first := drawNext (startBasicState points)
    let rest := runTimer fuel first.1
    (rest.1, first.2 ++ rest.2)

/-- The flattened segment list built by `addRichLayerAnimated`: for each
ride, one `{ride, idx}` record per index `1 ≤ i < ride.points.length`. -/
def richSegmentsOf (ridesData : List Ride) : List RichSeg :=
  ridesData.flatMap fun ride =>
    (List.range (ride.points.length - 1)).map fun j => ⟨ride, j + 1⟩

/-- The module state installed by `addRichLayerAnimated` just before its
first direct `drawNext()` call (non-empty segment list). -/
noncomputable def startRichState (ridesData : List Ride) : EngineState :=
  { running := true, paused := false, timerActive := false, resumeStored := false,
    segments := .rich (richSegmentsOf ridesData), currentIdx := 0, runningDistance := 0,
    drawnSegments := [], layerPaths := [], nextHandle := 0,
    firstTimestamp := (((richSegmentsOf ridesData).getD 0 default).ride.points.getD 0 default).tst,
    delayMs := calcDelay (richSegmentsOf ridesData).length }

lemma atan2_nonneg {y x : ℝ} (hy : 0 ≤ y) : 0 ≤ atan2 y x := by
  have harctan : ∀ z : ℝ, 0 ≤ z → 0 ≤ Real.arctan z := by
    intro z hz
    have h := Real.arctan_strictMono.monotone hz
    rwa [Real.arctan_zero] at h
  have h1 : -(Real.pi / 2) < Real.arctan (y / x) := Real.neg_pi_div_two_lt_arctan _
  have h2 : 0 < Real.pi := Real.pi_pos
  unfold atan2
  split_ifs with ha hb hc hd
  · exact harctan _ (div_nonneg hy ha.le)
  all_goals linarith

lemma haversineDistance_nonneg (lat1 lng1 lat2 lng2 : ℝ) :
    0 ≤ haversineDistance lat1 lng1 lat2 lng2 := by
  unfold haversineDistance
  have h : 0 ≤ atan2 (Real.sqrt (Real.sin ((lat2 - lat1) * Real.pi / 180 / 2) *
      Real.sin ((lat2 - lat1) * Real.pi / 180 / 2) +
      Real.cos (lat1 * Real.pi / 180) * Real.cos (lat2 * Real.pi / 180) *
      Real.sin ((lng2 - lng1) * Real.pi / 180 / 2) *
      Real.sin ((lng2 - lng1) * Real.pi / 180 / 2)))
      (Real.sqrt (1 - (Real.sin ((lat2 - lat1) * Real.pi / 180 / 2) *
      Real.sin ((lat2 - lat1) * Real.pi / 180 / 2) +
      Real.cos (lat1 * Real.pi / 180) * Real.cos (lat2 * Real.pi / 180) *
      Real.sin ((lng2 - lng1) * Real.pi / 180 / 2) *
      Real.sin ((lng2 - lng1) * Real.pi / 180 / 2)))) :=
    atan2_nonneg (Real.sqrt_nonneg _)
  simp only []
  linarith

lemma haversineJsRaw_eq_haversineDistance (lat1 lon1 lat2 lon2 : ℝ) :
    haversineJsRaw lat1 lon1 lat2 lon2 = haversineDistance lat1 lon1 lat2 lon2 := by
  simp only [haversineJsRaw, haversineDistance]
  ring

lemma haversineJs_nonneg (lat1 lon1 lat2 lon2 : ℝ) :
    0 ≤ haversineJs lat1 lon1 lat2 lon2 := by
  have hd : 0 ≤ haversineJsRaw lat1 lon1 lat2 lon2 := by
    rw [haversineJsRaw_eq_haversineDistance]
    exact haversineDistance_nonneg _ _ _ _
  unfold haversineJs
  split
  · nlinarith
  · exact le_refl 0

lemma haversineJs_eq_adjusted (lat1 lon1 lat2 lon2 : ℝ) :
    haversineJs lat1 lon1 lat2 lon2 =
      if haversineDistance lat1 lon1 lat2 lon2 < 0.01 then 0
      else haversineDistance lat1 lon1 lat2 lon2 * 1.05 := by
  unfold haversineJs
  rw [haversineJsRaw_eq_haversineDistance]
  by_cases h : haversineDistance lat1 lon1 lat2 lon2 < 0.01
  · rw [if_neg (not_le.mpr h), if_pos h]
  · rw [if_pos (not_lt.mp h), if_neg h]

/-- C6.  `adjustedSegmentDistance(a, b)` returns exactly `0` when the
great-circle (haversine, Earth radius 6371 km) distance between `a` and
`b` is below 0.01 km, and otherwise that distance multiplied by 1.05.
The Lean function is total and pure, which is the "no side effects and
no failure modes" part of the claim. -/
theorem adjustedSegmentDistance_spec (a b : Point) :
    adjustedSegmentDistance a b =
      if haversineDistance a.lat a.lng b.lat b.lng < 0.01 then 0
      else haversineDistance a.lat a.lng b.lat b.lng * 1.05 :=
  haversineJs_eq_adjusted a.lat a.lng b.lat b.lng

/-- C1.  While the single-flight flag `pollInProgress` is set, a call to
`poll()` performs zero network requests and leaves every piece of state
unchanged: the watermark, the cached session snapshot, the history log
and stats, the counters and the flag itself. -/
theorem pollLiveData_singleFlight (s : LiveState) (outcome : PollOutcome)
    (h : s.pollInProgress = true) : pollLiveData s outcome = (s, 0) := by
  simp [pollLiveData, h]

theorem pollLiveData_singleFlight_witness :
    pollLiveData ⟨true, 7, none, ⟨0, 0, 0⟩, ⟨0, 0, 0⟩, false, -1, [], []⟩
        PollOutcome.transportError =
      (⟨true, 7, none, ⟨0, 0, 0⟩, ⟨0, 0, 0⟩, false, -1, [], []⟩, 0) :=
  pollLiveData_singleFlight _ _ rfl

/-- C8.  A poll that actually runs (the guard was free) and fails —
transport error or a `success:false` response — leaves the state
exactly as it was: cached snapshot, watermark, history log and
counters are untouched and the single-flight guard is back to `false`
(it was `false` on entry, so state equality covers the release). -/
theorem pollLiveData_failure_atomic (s : LiveState) (data : PollResponse)
    (hguard : s.pollInProgress = false) (hfail : data.success = false) :
    (pollLiveData s PollOutcome.transportError).1 = s ∧
    (pollLiveData s (PollOutcome.response data)).1 = s := by
  obtain ⟨g, wm, ld, rc, rp, hm, hv, hp, hs⟩ := s
  simp only at hguard
  subst hguard
  constructor
  · simp [pollLiveData]
  · simp [pollLiveData, hfail]

theorem pollLiveData_failure_atomic_witness :
    (pollLiveData ⟨false, 7, none, ⟨0, 0, 0⟩, ⟨0, 0, 0⟩, false, -1, [], []⟩
        PollOutcome.transportError).1 =
      ⟨false, 7, none, ⟨0, 0, 0⟩, ⟨0, 0, 0⟩, false, -1, [], []⟩ ∧
    (pollLiveData ⟨false, 7, none, ⟨0, 0, 0⟩, ⟨0, 0, 0⟩, false, -1, [], []⟩
        (PollOutcome.response ⟨false, none, []⟩)).1 =
      ⟨false, 7, none, ⟨0, 0, 0⟩, ⟨0, 0, 0⟩, false, -1, [], []⟩ :=
  pollLiveData_failure_atomic _ _ rfl rfl

/-- C10.  Whenever the list of drawn segments is empty — before any
segment is drawn or after `stepBack` undid them all — the progress
report carries `lat = 0`, `lng = 0`, `timestamp = 0`, `duration = 0`
and `speed = 0`, not the first point's coordinates. -/
theorem fireProgress_no_drawn_segments (s : EngineState)
    (h : s.drawnSegments = []) :
    (fireProgress s).lat = 0 ∧ (fireProgress s).lng = 0 ∧
    (fireProgress s).timestamp = 0 ∧ (fireProgress s).duration = 0 ∧
    (fireProgress s).speed = 0 := by
  simp [fireProgress, h]

theorem fireProgress_no_drawn_segments_witness :
    (fireProgress ⟨true, true, false, false, .basic [⟨45, -73, 100⟩, ⟨46, -72, 160⟩],
        1, 0, [], [], 0, 100, 200⟩).lat = 0 ∧
    (fireProgress ⟨true, true, false, false, .basic [⟨45, -73, 100⟩, ⟨46, -72, 160⟩],
        1, 0, [], [], 0, 100, 200⟩).lng = 0 ∧
    (fireProgress ⟨true, true, false, false, .basic [⟨45, -73, 100⟩, ⟨46, -72, 160⟩],
        1, 0, [], [], 0, 100, 200⟩).timestamp = 0 ∧
    (fireProgress ⟨true, true, false, false, .basic [⟨45, -73, 100⟩, ⟨46, -72, 160⟩],
        1, 0, [], [], 0, 100, 200⟩).duration = 0 ∧
    (fireProgress ⟨true, true, false, false, .basic [⟨45, -73, 100⟩, ⟨46, -72, 160⟩],
        1, 0, [], [], 0, 100, 200⟩).speed = 0 :=
  fireProgress_no_drawn_segments _ rfl

lemma navigateHistory_preserves_NavInv (s : LiveState) (d : ℤ) (h : NavInv s) :
    NavInv (navigateHistory s d) := by
  unfold navigateHistory
  by_cases h0 : s.historyPoints.length = 0
  · simpa [h0] using h
  · simp only [h0, if_false]
    set s1 :=
      if s.historyModeActive then s
      else { s with historyModeActive := true,
                    historyViewIndex := (s.historyPoints.length : ℤ) - 1 } with hs1
    set clamped :=
      if s1.historyViewIndex + d < 0 then 0 else s1.historyViewIndex + d with hclamped
    have hlen : s1.historyPoints = s.historyPoints := by
      rw [hs1]; split <;> rfl
    by_cases hover : clamped ≥ (s.historyPoints.length : ℤ)
    · rw [if_pos hover]
      intro hactive
      simp [exitHistoryMode] at hactive
    · rw [if_neg hover]
      intro _
      refine ⟨?_, ?_⟩
      · simp only []
        rw [hclamped]
        split
        · exact le_refl 0
        · linarith [not_lt.mp (by assumption : ¬ s1.historyViewIndex + d < 0)]
      · simpa [hlen] using lt_of_not_ge hover

/-- C3.  History seeking never escapes the log: any sequence of
`navigateHistory` calls keeps the scrub cursor inside `[0, len-1]`
whenever scrub mode is active; a call on an empty log changes nothing;
a delta whose unclamped target passes the tail exits scrub mode (view
is live again); a negative overshoot is clamped to index 0. -/
theorem navigateHistory_spec :
    (∀ (s : LiveState) (ds : List ℤ), NavInv s → NavInv (ds.foldl navigateHistory s)) ∧
    (∀ (s : LiveState) (d : ℤ), s.historyPoints.length = 0 → navigateHistory s d = s) ∧
    (∀ (s : LiveState) (d : ℤ), 0 < s.historyPoints.length →
      (s.historyPoints.length : ℤ) ≤ seekTarget s d →
      (navigateHistory s d).historyModeActive = false) ∧
    (∀ (s : LiveState) (d : ℤ), 0 < s.historyPoints.length → seekTarget s d < 0 →
      (navigateHistory s d).historyModeActive = true ∧
      (navigateHistory s d).historyViewIndex = 0) := by
  refine ⟨?_, ?_, ?_, ?_⟩
  · intro s ds
    induction ds generalizing s with
    | nil => exact fun h => h
    | cons d rest ih =>
      intro h
      exact ih _ (navigateHistory_preserves_NavInv s d h)
  · intro s d h0
    simp [navigateHistory, h0]
  · intro s d hlen htarget
    have h0 : ¬ s.historyPoints.length = 0 := Nat.pos_iff_ne_zero.mp hlen
    unfold navigateHistory
    simp only [h0, if_false]
    set s1 :=
      if s.historyModeActive then s
      else { s with historyModeActive := true,
                    historyViewIndex := (s.historyPoints.length : ℤ) - 1 } with hs1
    have hidx : s1.historyViewIndex + d = seekTarget s d := by
      rw [hs1, seekTarget]; split <;> simp
    have hclamped :
        (if s1.historyViewIndex + d < 0 then 0 else s1.historyViewIndex + d) ≥
          (s.historyPoints.length : ℤ) := by
      rw [hidx]
      rw [if_neg (by linarith [Int.ofNat_pos.mpr hlen])]
      exact htarget
    rw [if_pos hclamped]
    simp [exitHistoryMode]
  · intro s d hlen htarget
    have h0 : ¬ s.historyPoints.length = 0 := Nat.pos_iff_ne_zero.mp hlen
    unfold navigateHistory
    simp only [h0, if_false]
    set s1 :=
      if s.historyModeActive then s
      else { s with historyModeActive := true,
                    historyViewIndex := (s.historyPoints.length : ℤ) - 1 } with hs1
    have hidx : s1.historyViewIndex + d = seekTarget s d := by
      rw [hs1, seekTarget]; split <;> simp
    have hclamped :
        (if s1.historyViewIndex + d < 0 then 0 else s1.historyViewIndex + d) = 0 := by
      rw [hidx, if_pos htarget]
    rw [hclamped]
    rw [if_neg (by push_neg; exact_mod_cast hlen)]
    have hactive : s1.historyModeActive = true := by
      rw [hs1]; split <;> simp_all
    exact ⟨hactive, rfl⟩

theorem navigateHistory_spec_witness :
    (NavInv ⟨false, 60, none, ⟨0, 0, 0⟩, ⟨0, 0, 0⟩, false, -1,
        [⟨45, -73, 10⟩, ⟨46, -72, 60⟩], []⟩ ∧
      NavInv (List.foldl navigateHistory
        ⟨false, 60, none, ⟨0, 0, 0⟩, ⟨0, 0, 0⟩, false, -1,
          [⟨45, -73, 10⟩, ⟨46, -72, 60⟩], []⟩ [-1, -5, 3])) ∧
    (navigateHistory ⟨false, 0, none, ⟨0, 0, 0⟩, ⟨0, 0, 0⟩, false, -1, [], []⟩ (-3) =
      ⟨false, 0, none, ⟨0, 0, 0⟩, ⟨0, 0, 0⟩, false, -1, [], []⟩) ∧
    ((navigateHistory ⟨false, 60, none, ⟨0, 0, 0⟩, ⟨0, 0, 0⟩, false, -1,
        [⟨45, -73, 10⟩, ⟨46, -72, 60⟩], []⟩ 4).historyModeActive = false) ∧
    ((navigateHistory ⟨false, 60, none, ⟨0, 0, 0⟩, ⟨0, 0, 0⟩, false, -1,
        [⟨45, -73, 10⟩, ⟨46, -72, 60⟩], []⟩ (-9)).historyModeActive = true ∧
      (navigateHistory ⟨false, 60, none, ⟨0, 0, 0⟩, ⟨0, 0, 0⟩, false, -1,
        [⟨45, -73, 10⟩, ⟨46, -72, 60⟩], []⟩ (-9)).historyViewIndex = 0) := by
  refine ⟨⟨?_, ?_⟩, ?_, ?_, ?_⟩
  · intro h; cases h
  · exact navigateHistory_spec.1 _ [-1, -5, 3] (fun h => by cases h)
  · exact navigateHistory_spec.2.1 _ (-3) rfl
  · exact navigateHistory_spec.2.2.1 _ 4 (by decide) (by norm_num [seekTarget])
  · exact navigateHistory_spec.2.2.2 _ (-9) (by decide) (by norm_num [seekTarget])

lemma addPointsToHistory_historyPoints :
    ∀ (ps : List Point) (s : LiveState),
      (addPointsToHistory s ps).historyPoints = s.historyPoints ++ ps := by
  intro ps
  induction ps with
  | nil => intro s; simp [addPointsToHistory]
  | cons p rest ih =>
    intro s
    rw [addPointsToHistory, ih]
    simp

lemma addPointsToHistory_lastDrawnTimestamp :
    ∀ (ps : List Point) (s : LiveState),
      (addPointsToHistory s ps).lastDrawnTimestamp = s.lastDrawnTimestamp := by
  intro ps
  induction ps with
  | nil => intro s; simp [addPointsToHistory]
  | cons p rest ih =>
    intro s
    rw [addPointsToHistory, ih]

lemma pollLiveData_success_nonempty_fields (s : LiveState) (data : PollResponse)
    (hp : s.pollInProgress = false) (hs : data.success = true)
    (hpts : 0 < data.points_to_draw.length) :
    (pollLiveData s (PollOutcome.response data)).1.historyPoints =
        s.historyPoints ++ data.points_to_draw ∧
    (pollLiveData s (PollOutcome.response data)).1.lastDrawnTimestamp =
        (data.points_to_draw.getLast?.getD default).tst := by
  unfold pollLiveData
  simp only [hp, Bool.false_eq_true, if_false, hs, Bool.true_eq_false, hpts, if_true]
  split
  · constructor
    · rw [addPointsToHistory_historyPoints]
    · rw [addPointsToHistory_lastDrawnTimestamp]
  · constructor
    · rw [addPointsToHistory_historyPoints]
    · rw [addPointsToHistory_lastDrawnTimestamp]

lemma pollLiveData_success_empty_fields (s : LiveState) (data : PollResponse)
    (hp : s.pollInProgress = false) (hs : data.success = true)
    (hpts : data.points_to_draw.length = 0) :
    (pollLiveData s (PollOutcome.response data)).1.historyPoints = s.historyPoints ∧
    (pollLiveData s (PollOutcome.response data)).1.lastDrawnTimestamp =
      s.lastDrawnTimestamp := by
  unfold pollLiveData
  simp only [hp, Bool.false_eq_true, if_false, hs, Bool.true_eq_false, hpts,
    lt_irrefl, if_false]
  split
  · exact ⟨rfl, rfl⟩
  · exact ⟨rfl, rfl⟩

lemma pollLiveData_step_watermark (s : LiveState) (o : PollOutcome)
    (hg : GoodOutcome s o) (hinv : WatermarkInv s) :
    WatermarkInv (pollLiveData s o).1 ∧
    s.lastDrawnTimestamp ≤ (pollLiveData s o).1.lastDrawnTimestamp := by
  by_cases hPoll : s.pollInProgress = true
  · have hres : pollLiveData s o = (s, 0) := by simp [pollLiveData, hPoll]
    rw [hres]
    exact ⟨hinv, le_refl _⟩
  · have hp : s.pollInProgress = false := by simpa using hPoll
    cases o with
    | transportError =>
      have hres : (pollLiveData s PollOutcome.transportError).1 =
          { s with pollInProgress := false } := by
        simp [pollLiveData, hp]
      rw [hres]
      exact ⟨hinv, le_refl _⟩
    | response data =>
      by_cases hsucc : data.success = true
      · obtain ⟨hall, hchain⟩ := hg hsucc
        by_cases hpts : 0 < data.points_to_draw.length
        · obtain ⟨hlog, hwm⟩ := pollLiveData_success_nonempty_fields s data hp hsucc hpts
          have hne : data.points_to_draw ≠ [] := List.length_pos.mp hpts
          have hq : data.points_to_draw.getLast? =
              some (data.points_to_draw.getLast hne) :=
            List.getLast?_eq_getLast_of_ne_nil hne
          have hqmem : data.points_to_draw.getLast hne ∈ data.points_to_draw :=
            List.getLast_mem hne
          constructor
          · intro p hpmem
            rw [hlog, List.getLast?_append_of_ne_nil _ hne, hq] at hpmem
            simp only [Option.mem_def, Option.some.injEq] at hpmem
            subst hpmem
            rw [hwm, hq]
            rfl
          · rw [hwm, hq]
            exact le_of_lt (hall _ hqmem)
        · have hlen0 : data.points_to_draw.length = 0 := Nat.eq_zero_of_not_pos hpts
          obtain ⟨hlog, hwm⟩ := pollLiveData_success_empty_fields s data hp hsucc hlen0
          constructor
          · intro p hpmem
            rw [hlog] at hpmem
            rw [hwm]
            exact hinv p hpmem
          · rw [hwm]
      · have hf : data.success = false := by
          cases hdata : data.success
          · rfl
          · exact absurd hdata hsucc
        have hres : (pollLiveData s (PollOutcome.response data)).1 =
            { s with pollInProgress := false } := by
          simp [pollLiveData, hp, hf]
        rw [hres]
        exact ⟨hinv, le_refl _⟩

lemma loadLiveTrackSuccess_watermark (s : LiveState) (points : List Point)
    (hinv : WatermarkInv s) : WatermarkInv (loadLiveTrackSuccess s points) := by
  cases points with
  | nil => simpa [loadLiveTrackSuccess] using hinv
  | cons first rest =>
    unfold loadLiveTrackSuccess
    rw [if_pos (by simp)]
    intro p hpmem
    have hne : (first :: rest) ≠ [] := by simp
    simp only [initializeHistoryFromPoints] at hpmem ⊢
    rw [List.getLast?_eq_getLast_of_ne_nil hne] at hpmem ⊢
    simp only [Option.mem_def, Option.some.injEq] at hpmem
    subst hpmem
    rfl

/-- C2.  Along any trace of polls in which every successful response
carries only points strictly newer than the watermark that was sent, in
ascending order, the watermark `lastDrawnTimestamp` never decreases and
the invariant "watermark = `tst` of the last point accepted into the
log" is preserved; a successful `loadLiveTrack` establishes that same
invariant.  Instantiating the first part at any intermediate state
gives step-by-step monotonicity across the whole sequence. -/
theorem watermark_monotone_spec :
    (∀ (s : LiveState) (outcomes : List PollOutcome),
      WatermarkInv s → GoodTrace s outcomes →
      WatermarkInv (runPolls s outcomes) ∧
      s.lastDrawnTimestamp ≤ (runPolls s outcomes).lastDrawnTimestamp) ∧
    (∀ (s : LiveState) (points : List Point), WatermarkInv s →
      WatermarkInv (loadLiveTrackSuccess s points)) := by
  constructor
  · intro s outcomes
    induction outcomes generalizing s with
    | nil => exact fun hinv _ => ⟨hinv, le_refl _⟩
    | cons o rest ih =>
      intro hinv hgood
      obtain ⟨hg, hrest⟩ := hgood
      obtain ⟨hinv1, hle1⟩ := pollLiveData_step_watermark s o hg hinv
      obtain ⟨hinv2, hle2⟩ := ih _ hinv1 hrest
      exact ⟨hinv2, le_trans hle1 hle2⟩
  · exact loadLiveTrackSuccess_watermark

theorem watermark_monotone_spec_witness :
    (WatermarkInv (runPolls ⟨false, 0, none, ⟨0, 0, 0⟩, ⟨0, 0, 0⟩, false, -1, [], []⟩
        [PollOutcome.response ⟨true, none, [⟨45, -73, 5⟩]⟩]) ∧
      (0 : ℤ) ≤ (runPolls ⟨false, 0, none, ⟨0, 0, 0⟩, ⟨0, 0, 0⟩, false, -1, [], []⟩
        [PollOutcome.response ⟨true, none, [⟨45, -73, 5⟩]⟩]).lastDrawnTimestamp) ∧
    WatermarkInv (loadLiveTrackSuccess
      ⟨false, 0, none, ⟨0, 0, 0⟩, ⟨0, 0, 0⟩, false, -1, [], []⟩
      [⟨45, -73, 10⟩, ⟨46, -72, 60⟩]) := by
  constructor
  · exact watermark_monotone_spec.1 _ _
      (by intro p hp; simp at hp)
      (by
        refine ⟨fun _ => ⟨?_, ?_⟩, trivial⟩
        · intro p hp
          simp only [List.mem_singleton] at hp
          subst hp
          norm_num
        · simp)
  · exact watermark_monotone_spec.2 _ _ (by intro p hp; simp at hp)

lemma nextCumStat_eq (pref : List Point) (stats : List CumStat) (p first prev : Point)
    (cum : ℝ) (hne : 0 < pref.length)
    (hfirst : pref.getD 0 default = first)
    (hprev : pref.getD (pref.length - 1) default = prev)
    (_hlen : stats.length = pref.length)
    (hcum : (stats.getD (pref.length - 1) default).distance = cum) :
    nextCumStat (pref ++ [p]) stats p =
      ⟨p.tst,
       if haversineDistance prev.lat prev.lng p.lat p.lng ≥ 0.01 then
         cum + haversineDistance prev.lat prev.lng p.lat p.lng * 1.05
       else cum,
       p.tst - first.tst, pref.length + 1⟩ := by
  have hlen1 : (pref ++ [p]).length - 1 = pref.length := by simp
  have hidx : pref.length - 1 < pref.length := Nat.sub_lt hne Nat.one_pos
  unfold nextCumStat
  rw [hlen1, if_pos hne]
  rw [List.getD_append _ _ _ _ hidx, hprev]
  rw [List.getD_append _ _ _ _ hne, hfirst]
  simp only [hcum]

lemma addPointsToHistory_stats_eq_initAux :
    ∀ (rest : List Point) (s : LiveState) (pref : List Point) (first prev : Point) (cum : ℝ),
      s.historyPoints = pref →
      0 < pref.length →
      pref.getD 0 default = first →
      pref.getD (pref.length - 1) default = prev →
      s.historyCumulativeStats.length = pref.length →
      (s.historyCumulativeStats.getD (pref.length - 1) default).distance = cum →
      (addPointsToHistory s rest).historyCumulativeStats =
        s.historyCumulativeStats ++ initStatsAux first pref.length prev cum rest := by
  intro rest
  induction rest with
  | nil =>
    intro s pref first prev cum _ _ _ _ _ _
    simp [addPointsToHistory, initStatsAux]
  | cons p rest ih =>
    intro s pref first prev cum hlog hne hfirst hprev hlen hcum
    rw [addPointsToHistory, hlog]
    rw [nextCumStat_eq pref s.historyCumulativeStats p first prev cum hne hfirst hprev
      hlen hcum]
    rw [ih _ (pref ++ [p]) first p
      (if haversineDistance prev.lat prev.lng p.lat p.lng ≥ 0.01 then
         cum + haversineDistance prev.lat prev.lng p.lat p.lng * 1.05
       else cum)
      rfl (by simp)
      (by rw [List.getD_append _ _ _ _ hne, hfirst])
      (by
        have h1 : (pref ++ [p]).length - 1 = pref.length := by simp
        rw [h1, List.getD_append_right _ _ _ _ (le_refl _)]
        simp)
      (by simp [hlen])
      (by
        have h1 : (pref ++ [p]).length - 1 = pref.length := by simp
        rw [h1, ← hlen, List.getD_append_right _ _ _ _ (le_refl _)]
        simp)]
    rw [initStatsAux]
    simp

/-- C9.  Rebuilding the history from scratch with
`initializeHistoryFromPoints` produces exactly the same history log and
the same cumulative-stats array — same `tst`, `distance`, `duration`
and `pointCount` at every index — as appending the same list with
`addPointsToHistory` onto an empty log. -/
theorem initializeHistory_refines_append (s : LiveState) (points : List Point)
    (hlog : s.historyPoints = []) (hstats : s.historyCumulativeStats = []) :
    (initializeHistoryFromPoints s points).historyPoints =
      (addPointsToHistory s points).historyPoints ∧
    (initializeHistoryFromPoints s points).historyCumulativeStats =
      (addPointsToHistory s points).historyCumulativeStats := by
  cases points with
  | nil =>
    exact ⟨by simp [initializeHistoryFromPoints, addPointsToHistory, hlog],
      by simp [initializeHistoryFromPoints, addPointsToHistory, hstats]⟩
  | cons first rest =>
    constructor
    · rw [addPointsToHistory_historyPoints, hlog]
      simp [initializeHistoryFromPoints]
    · rw [addPointsToHistory, hlog, hstats]
      have hstat : nextCumStat ([] ++ [first]) [] first = ⟨first.tst, 0, 0, 1⟩ := by
        simp [nextCumStat]
      rw [hstat]
      rw [addPointsToHistory_stats_eq_initAux rest _ [first] first first 0
        (by simp) (by simp) (by simp) (by simp) (by simp) (by simp)]
      simp [initializeHistoryFromPoints]

theorem initializeHistory_refines_append_witness :
    (initializeHistoryFromPoints
        ⟨false, 0, none, ⟨0, 0, 0⟩, ⟨0, 0, 0⟩, false, -1, [], []⟩
        [⟨45, -73, 10⟩, ⟨46, -72, 60⟩]).historyPoints =
      (addPointsToHistory ⟨false, 0, none, ⟨0, 0, 0⟩, ⟨0, 0, 0⟩, false, -1, [], []⟩
        [⟨45, -73, 10⟩, ⟨46, -72, 60⟩]).historyPoints ∧
    (initializeHistoryFromPoints
        ⟨false, 0, none, ⟨0, 0, 0⟩, ⟨0, 0, 0⟩, false, -1, [], []⟩
        [⟨45, -73, 10⟩, ⟨46, -72, 60⟩]).historyCumulativeStats =
      (addPointsToHistory ⟨false, 0, none, ⟨0, 0, 0⟩, ⟨0, 0, 0⟩, false, -1, [], []⟩
        [⟨45, -73, 10⟩, ⟨46, -72, 60⟩]).historyCumulativeStats :=
  initializeHistory_refines_append _ _ rfl rfl

lemma statsMonotone_append (l : List CumStat) (x : CumStat)
    (hmono : StatsMonotone l)
    (hlast : 0 < l.length → (l.getD (l.length - 1) default).distance ≤ x.distance) :
    StatsMonotone (l ++ [x]) := by
  intro i hi
  have hlen : (l ++ [x]).length = l.length + 1 := by simp
  rw [hlen] at hi
  have hi' : i < l.length := by omega
  by_cases hI : i + 1 < l.length
  · rw [List.getD_append _ _ _ _ hi', List.getD_append _ _ _ _ hI]
    exact hmono i hI
  · have hieq : i + 1 = l.length := by omega
    have h0 : 0 < l.length := by omega
    have hil : i = l.length - 1 := by omega
    rw [List.getD_append _ _ _ _ hi', hieq,
      List.getD_append_right _ _ _ _ (le_refl _), Nat.sub_self]
    simpa [hil] using hlast h0

lemma nextCumStat_distance_ge (s : LiveState) (p : Point)
    (halign : s.historyCumulativeStats.length = s.historyPoints.length)
    (h0 : 0 < s.historyCumulativeStats.length) :
    (s.historyCumulativeStats.getD (s.historyCumulativeStats.length - 1) default).distance ≤
      (nextCumStat (s.historyPoints ++ [p]) s.historyCumulativeStats p).distance := by
  have h0' : 0 < s.historyPoints.length := halign ▸ h0
  have hidx : (s.historyPoints ++ [p]).length - 1 = s.historyPoints.length := by simp
  unfold nextCumStat
  rw [hidx, if_pos h0']
  simp only []
  rw [← halign]
  split
  · rename_i hge
    nlinarith
  · exact le_refl _

lemma addPointsToHistory_aligned_monotone :
    ∀ (ps : List Point) (s : LiveState),
      s.historyCumulativeStats.length = s.historyPoints.length →
      StatsMonotone s.historyCumulativeStats →
      (addPointsToHistory s ps).historyCumulativeStats.length =
        (addPointsToHistory s ps).historyPoints.length ∧
      StatsMonotone (addPointsToHistory s ps).historyCumulativeStats := by
  intro ps
  induction ps with
  | nil =>
    intro s halign hmono
    exact ⟨by simpa [addPointsToHistory] using halign, by simpa [addPointsToHistory] using hmono⟩
  | cons p rest ih =>
    intro s halign hmono
    rw [addPointsToHistory]
    refine ih _ (by simp [halign]) ?_
    refine statsMonotone_append _ _ hmono ?_
    intro h0
    exact nextCumStat_distance_ge s p halign h0

lemma initializeHistory_stats_eq_reset (s : LiveState) (points : List Point) :
    (initializeHistoryFromPoints s points).historyCumulativeStats =
      (addPointsToHistory
        { s with historyPoints := [], historyCumulativeStats := [] }
        points).historyCumulativeStats := by
  cases points with
  | nil => simp [initializeHistoryFromPoints, addPointsToHistory]
  | cons first rest =>
    rw [addPointsToHistory]
    have hstat : nextCumStat ([] ++ [first]) [] first = ⟨first.tst, 0, 0, 1⟩ := by
      simp [nextCumStat]
    simp only [hstat]
    rw [addPointsToHistory_stats_eq_initAux rest _ [first] first first 0
      (by simp) (by simp) (by simp) (by simp) (by simp) (by simp)]
    simp [initializeHistoryFromPoints]

/-- C7.  The cumulative distance of the stats array is monotonically
non-decreasing in the index: appending any batch of points to an
aligned, monotone history keeps `CumulativeStat[i].distance ≤
CumulativeStat[i+1].distance` for all valid `i`, and a history rebuilt
by `initializeHistoryFromPoints` satisfies it outright.  Each appended
entry extends the previous one by `0` (below the 0.01 km noise floor)
or by `haversine * 1.05`, which is what makes the sum non-decreasing;
that contribution rule is the second conjunct. -/
theorem cumulative_distance_monotone :
    (∀ (s : LiveState) (ps : List Point),
      s.historyCumulativeStats.length = s.historyPoints.length →
      StatsMonotone s.historyCumulativeStats →
      StatsMonotone (addPointsToHistory s ps).historyCumulativeStats) ∧
    (∀ (s : LiveState) (points : List Point),
      StatsMonotone (initializeHistoryFromPoints s points).historyCumulativeStats) ∧
    (∀ (pref : List Point) (stats : List CumStat) (p : Point),
      0 < pref.length → stats.length = pref.length →
      (nextCumStat (pref ++ [p]) stats p).distance =
        (stats.getD (pref.length - 1) default).distance +
        (if haversineDistance (pref.getD (pref.length - 1) default).lat
            (pref.getD (pref.length - 1) default).lng p.lat p.lng < 0.01 then 0
         else haversineDistance (pref.getD (pref.length - 1) default).lat
            (pref.getD (pref.length - 1) default).lng p.lat p.lng * 1.05)) := by
  refine ⟨?_, ?_, ?_⟩
  · intro s ps halign hmono
    exact (addPointsToHistory_aligned_monotone ps s halign hmono).2
  · intro s points
    rw [initializeHistory_stats_eq_reset]
    refine (addPointsToHistory_aligned_monotone points _ rfl ?_).2
    intro i hi
    simp at hi
  · intro pref stats p hne hlen
    rw [nextCumStat_eq pref stats p (pref.getD 0 default)
      (pref.getD (pref.length - 1) default)
      ((stats.getD (pref.length - 1) default).distance) hne rfl rfl hlen rfl]
    simp only []
    by_cases hd : haversineDistance (pref.getD (pref.length - 1) default).lat
        (pref.getD (pref.length - 1) default).lng p.lat p.lng < 0.01
    · rw [if_neg (not_le.mpr hd), if_pos hd]
      ring
    · rw [if_pos (not_lt.mp hd), if_neg hd]

theorem cumulative_distance_monotone_witness :
    StatsMonotone (addPointsToHistory
      ⟨false, 0, none, ⟨0, 0, 0⟩, ⟨0, 0, 0⟩, false, -1, [], []⟩
      [⟨45, -73, 10⟩, ⟨46, -72, 60⟩]).historyCumulativeStats ∧
    StatsMonotone (initializeHistoryFromPoints
      ⟨false, 0, none, ⟨0, 0, 0⟩, ⟨0, 0, 0⟩, false, -1, [], []⟩
      [⟨45, -73, 10⟩, ⟨46, -72, 60⟩]).historyCumulativeStats ∧
    (nextCumStat ([⟨45, -73, 10⟩] ++ [⟨46, -72, 60⟩]) [⟨10, 0, 0, 1⟩]
        ⟨46, -72, 60⟩).distance =
      (([⟨10, 0, 0, 1⟩] : List CumStat).getD 0 default).distance +
      (if haversineDistance (([⟨45, -73, 10⟩] : List Point).getD 0 default).lat
          (([⟨45, -73, 10⟩] : List Point).getD 0 default).lng (46 : ℝ) (-72 : ℝ) < 0.01
       then 0
       else haversineDistance (([⟨45, -73, 10⟩] : List Point).getD 0 default).lat
          (([⟨45, -73, 10⟩] : List Point).getD 0 default).lng (46 : ℝ) (-72 : ℝ) * 1.05) := by
  refine ⟨?_, ?_, ?_⟩
  · exact cumulative_distance_monotone.1 _ _ rfl (by intro i hi; simp at hi)
  · exact cumulative_distance_monotone.2.1 _ _
  · exact cumulative_distance_monotone.2.2 [⟨45, -73, 10⟩] [⟨10, 0, 0, 1⟩]
      ⟨46, -72, 60⟩ (by simp) (by simp)

lemma segEndpoints_some (s : EngineState) (hmore : s.currentIdx < s.segments.size) :
    ∃ pq, segEndpoints s = some pq := by
  rcases hs : s.segments with ps | segs
  · rw [hs] at hmore
    simp only [AnimSegments.size] at hmore
    exact ⟨(ps.getD (s.currentIdx - 1) default, ps.getD s.currentIdx default),
      by simp [segEndpoints, hs, hmore]⟩
  · rw [hs] at hmore
    simp only [AnimSegments.size] at hmore
    exact ⟨((segs.getD s.currentIdx default).ride.points.getD
        ((segs.getD s.currentIdx default).idx - 1) default,
      (segs.getD s.currentIdx default).ride.points.getD
        (segs.getD s.currentIdx default).idx default),
      by simp [segEndpoints, hs, hmore]⟩

lemma stepForward_eq (s : EngineState) (hpaused : s.paused = true)
    (hrun : s.running = true) (hmore : s.currentIdx < s.segments.size) :
    ∃ a b, segEndpoints s = some (a, b) ∧
      stepForward s =
        { s with
          layerPaths := s.layerPaths ++ [s.nextHandle],
          runningDistance := s.runningDistance + haversineJs a.lat a.lng b.lat b.lng,
          drawnSegments := s.drawnSegments ++
            [⟨s.nextHandle, haversineJs a.lat a.lng b.lat b.lng, b.lat, b.lng, b.tst⟩],
          currentIdx := s.currentIdx + 1,
          nextHandle := s.nextHandle + 1 } := by
  obtain ⟨⟨a, b⟩, hseg⟩ := segEndpoints_some s hmore
  exact ⟨a, b, hseg, by simp [stepForward, drawOneSegment, hseg, hpaused, hrun, hmore]⟩

lemma removeFirstHandle_append_fresh (l : List ℕ) (x : ℕ) (hx : ∀ h ∈ l, h ≠ x) :
    removeFirstHandle (l ++ [x]) x = l := by
  induction l with
  | nil => simp [removeFirstHandle]
  | cons a rest ih =>
    have ha : a ≠ x := hx a (by simp)
    show removeFirstHandle (a :: (rest ++ [x])) x = a :: rest
    rw [removeFirstHandle, if_neg ha, ih (fun h hmem => hx h (by simp [hmem]))]

lemma stepBack_pop (u : EngineState) (l : List DrawnSeg) (e : DrawnSeg)
    (hpaused : u.paused = true) (hrun : u.running = true)
    (hdrawn : u.drawnSegments = l ++ [e]) :
    stepBack u =
      { u with drawnSegments := l,
               layerPaths := removeFirstHandle u.layerPaths e.polyline,
               currentIdx := u.currentIdx - 1,
               runningDistance := if u.runningDistance - e.distance < 0 then 0
                 else u.runningDistance - e.distance } := by
  unfold stepBack
  rw [hdrawn, List.getLast?_concat]
  simp [hpaused, hrun, List.dropLast_concat]

/-- Full-state form of the C4 round-trip law: after `n` steps forward
and `n` steps back every tracked field is restored except the
fresh-handle counter used to model polyline allocation. -/
lemma stepBack_stepForward_roundtrip (n : ℕ) :
    ∀ (s : EngineState), s.paused = true → s.running = true →
      s.currentIdx + n ≤ s.segments.size → 0 ≤ s.runningDistance →
      (∀ h ∈ s.layerPaths, h < s.nextHandle) →
      stepBack^[n] (stepForward^[n] s) = { s with nextHandle := s.nextHandle + n } := by
  induction n with
  | zero =>
    intro s _ _ _ _ _
    rfl
  | succ n ih =>
    intro s hpaused hrun havail hrd hpaths
    have hmore : s.currentIdx < s.segments.size := by omega
    obtain ⟨a, b, hseg, hF⟩ := stepForward_eq s hpaused hrun hmore
    have hd : 0 ≤ haversineJs a.lat a.lng b.lat b.lng := haversineJs_nonneg _ _ _ _
    rw [show stepForward^[n + 1] s = stepForward^[n] (stepForward s) from
      Function.iterate_succ_apply _ _ _]
    rw [show stepBack^[n + 1] (stepForward^[n] (stepForward s)) =
        stepBack (stepBack^[n] (stepForward^[n] (stepForward s))) from
      Function.iterate_succ_apply' _ _ _]
    have hrec := ih
      { s with
        layerPaths := s.layerPaths ++ [s.nextHandle],
        runningDistance := s.runningDistance + haversineJs a.lat a.lng b.lat b.lng,
        drawnSegments := s.drawnSegments ++
          [⟨s.nextHandle, haversineJs a.lat a.lng b.lat b.lng, b.lat, b.lng, b.tst⟩],
        currentIdx := s.currentIdx + 1,
        nextHandle := s.nextHandle + 1 }
      hpaused hrun
      (by show s.currentIdx + 1 + n ≤ s.segments.size; omega)
      (by show (0 : ℝ) ≤ s.runningDistance + haversineJs a.lat a.lng b.lat b.lng; linarith)
      (by
        show ∀ h ∈ s.layerPaths ++ [s.nextHandle], h < s.nextHandle + 1
        intro h hmem
        simp only [List.mem_append, List.mem_singleton] at hmem
        rcases hmem with hmem | hmem
        · exact Nat.lt_succ_of_lt (hpaths h hmem)
        · exact hmem ▸ Nat.lt_succ_self _)
    rw [hF, hrec]
    refine Eq.trans (stepBack_pop _ s.drawnSegments
      ⟨s.nextHandle, haversineJs a.lat a.lng b.lat b.lng, b.lat, b.lng, b.tst⟩
      hpaused hrun rfl) ?_
    have hsub : s.runningDistance + haversineJs a.lat a.lng b.lat b.lng -
        haversineJs a.lat a.lng b.lat b.lng = s.runningDistance := by ring
    simp only [hsub, if_neg (not_lt.mpr hrd), Nat.add_sub_cancel]
    rw [removeFirstHandle_append_fresh _ _ (fun h hmem => Nat.ne_of_lt (hpaths h hmem))]
    simp [Nat.add_assoc, Nat.add_comm 1 n]

/-- C4.  For a paused, running animation with at least `n` more
segments available (and a well-formed state: non-negative accumulated
distance, rendered-path handles below the allocation counter), `n`
calls to `stepForward` followed by `n` calls to `stepBack` restore the
cumulative drawn distance, the current segment index, the drawn-segment
undo list, and the rendered layer paths to their values before the
first `stepForward`. -/
theorem stepForward_stepBack_roundtrip_spec (s : EngineState) (n : ℕ)
    (hpaused : s.paused = true) (hrun : s.running = true)
    (havail : s.currentIdx + n ≤ s.segments.size) (hrd : 0 ≤ s.runningDistance)
    (hpaths : ∀ h ∈ s.layerPaths, h < s.nextHandle) :
    (stepBack^[n] (stepForward^[n] s)).runningDistance = s.runningDistance ∧
    (stepBack^[n] (stepForward^[n] s)).currentIdx = s.currentIdx ∧
    (stepBack^[n] (stepForward^[n] s)).drawnSegments = s.drawnSegments ∧
    (stepBack^[n] (stepForward^[n] s)).layerPaths = s.layerPaths := by
  rw [stepBack_stepForward_roundtrip n s hpaused hrun havail hrd hpaths]
  exact ⟨rfl, rfl, rfl, rfl⟩

theorem stepForward_stepBack_roundtrip_spec_witness :
    (stepBack^[2] (stepForward^[2]
      ⟨true, true, false, false, .basic [⟨45, -73, 10⟩, ⟨45.1, -73.1, 70⟩, ⟨45.2, -73.2, 130⟩],
        1, 0, [], [], 0, 10, 200⟩)).runningDistance = 0 ∧
    (stepBack^[2] (stepForward^[2]
      ⟨true, true, false, false, .basic [⟨45, -73, 10⟩, ⟨45.1, -73.1, 70⟩, ⟨45.2, -73.2, 130⟩],
        1, 0, [], [], 0, 10, 200⟩)).currentIdx = 1 ∧
    (stepBack^[2] (stepForward^[2]
      ⟨true, true, false, false, .basic [⟨45, -73, 10⟩, ⟨45.1, -73.1, 70⟩, ⟨45.2, -73.2, 130⟩],
        1, 0, [], [], 0, 10, 200⟩)).drawnSegments = [] ∧
    (stepBack^[2] (stepForward^[2]
      ⟨true, true, false, false, .basic [⟨45, -73, 10⟩, ⟨45.1, -73.1, 70⟩, ⟨45.2, -73.2, 130⟩],
        1, 0, [], [], 0, 10, 200⟩)).layerPaths = [] :=
  stepForward_stepBack_roundtrip_spec _ 2 rfl rfl (by simp [AnimSegments.size])
    (le_refl 0) (by simp)

lemma drawOneSegment_eq (s : EngineState) (hmore : s.currentIdx < s.segments.size) :
    ∃ a b, segEndpoints s = some (a, b) ∧
      drawOneSegment s =
        { s with
          layerPaths := s.layerPaths ++ [s.nextHandle],
          runningDistance := s.runningDistance + haversineJs a.lat a.lng b.lat b.lng,
          drawnSegments := s.drawnSegments ++
            [⟨s.nextHandle, haversineJs a.lat a.lng b.lat b.lng, b.lat, b.lng, b.tst⟩],
          currentIdx := s.currentIdx + 1,
          nextHandle := s.nextHandle + 1 } := by
  obtain ⟨⟨a, b⟩, hseg⟩ := segEndpoints_some s hmore
  exact ⟨a, b, hseg, by simp [drawOneSegment, hseg]⟩

lemma runTimer_inactive (fuel : ℕ) (st : EngineState) (h : st.timerActive = false) :
    runTimer fuel st = (st, []) := by
  cases fuel with
  | zero => rfl
  | succ fuel => simp [runTimer, h]

lemma runTimer_drain :
    ∀ (fuel : ℕ) (s : EngineState), s.paused = false → s.running = true →
      s.timerActive = true → s.segments.size - s.currentIdx < fuel →
      (runTimer fuel s).2 =
        List.replicate (s.segments.size - s.currentIdx) AnimEvent.drew ++
          [AnimEvent.completed] := by
  intro fuel
  induction fuel with
  | zero =>
    intro s _ _ _ hfuel
    exact absurd hfuel (by omega)
  | succ fuel ih =>
    intro s hpaused hrun htimer hfuel
    rw [runTimer, if_pos htimer]
    by_cases hdone : s.segments.size ≤ s.currentIdx
    · have hzero : s.segments.size - s.currentIdx = 0 := by omega
      have hstep : drawNext { s with timerActive := false } =
          ({ s with timerActive := false, running := false }, [AnimEvent.completed]) := by
        simp [drawNext, hpaused, hdone]
      simp only [hstep]
      rw [runTimer_inactive fuel { s with timerActive := false, running := false } rfl]
      simp [hzero]
    · have hmore : s.currentIdx < s.segments.size := by omega
      obtain ⟨a, b, hseg, hdraw⟩ := drawOneSegment_eq { s with timerActive := false }
        (by simpa using hmore)
      have hstep : drawNext { s with timerActive := false } =
          ({ drawOneSegment { s with timerActive := false } with
              resumeStored := true, timerActive := true }, [AnimEvent.drew]) := by
        simp [drawNext, hpaused, hdone]
      have hih := ih
        { drawOneSegment { s with timerActive := false } with
          resumeStored := true, timerActive := true }
        (by simp only [hdraw]; exact hpaused)
        (by simp only [hdraw]; exact hrun)
        rfl
        (by
          simp only [hdraw]
          show s.segments.size - (s.currentIdx + 1) < fuel
          omega)
      simp only [hstep]
      rw [hih]
      simp only [hdraw]
      show AnimEvent.drew ::
          (List.replicate (s.segments.size - (s.currentIdx + 1)) AnimEvent.drew ++
            [AnimEvent.completed]) =
        List.replicate (s.segments.size - s.currentIdx) AnimEvent.drew ++
          [AnimEvent.completed]
      rw [show s.segments.size - s.currentIdx = (s.segments.size - (s.currentIdx + 1)) + 1
        from by omega]
      rw [List.replicate_succ]
      simp

lemma addBasicLayerAnimated_events (s0 : EngineState) (points : List Point) (fuel : ℕ)
    (hne : points ≠ []) (hfuel : points.length ≤ fuel) :
    (addBasicLayerAnimated s0 points fuel).2 =
      List.replicate (points.length - 1) AnimEvent.drew ++ [AnimEvent.completed] := by
  have hlen0 : ¬ points.length = 0 := fun h => hne (List.length_eq_zero.mp h)
  unfold addBasicLayerAnimated
  rw [if_neg hlen0]
  by_cases hone : points.length ≤ 1
  · have hlen1 : points.length = 1 := by omega
    have hstep : drawNext (startBasicState points) =
        ({ startBasicState points with running := false, timerActive := false },
          [AnimEvent.completed]) := by
      simp [drawNext, startBasicState, AnimSegments.size, hlen1]
    simp only [hstep]
    rw [runTimer_inactive fuel
      { startBasicState points with running := false, timerActive := false } rfl]
    simp [hlen1]
  · have h1 : 1 < points.length := by omega
    have hmore : (startBasicState points).currentIdx <
        (startBasicState points).segments.size := by
      show (1 : ℕ) < (AnimSegments.basic points).size
      simpa [AnimSegments.size] using h1
    obtain ⟨a, b, hseg, hdraw⟩ := drawOneSegment_eq (startBasicState points) hmore
    have hstep : drawNext (startBasicState points) =
        ({ drawOneSegment (startBasicState points) with
            resumeStored := true, timerActive := true }, [AnimEvent.drew]) := by
      simp only [drawNext]
      rw [if_neg (by simp [startBasicState])]
      rw [if_neg (by
        show ¬ ((startBasicState points).segments.size ≤ (startBasicState points).currentIdx)
        show ¬ ((AnimSegments.basic points).size ≤ 1)
        simpa [AnimSegments.size] using hone)]
    have hdrain := runTimer_drain fuel
      { drawOneSegment (startBasicState points) with
        resumeStored := true, timerActive := true }
      (by simp only [hdraw]; show (startBasicState points).paused = false; rfl)
      (by simp only [hdraw]; show (startBasicState points).running = true; rfl)
      rfl
      (by
        simp only [hdraw]
        show (startBasicState points).segments.size -
          ((startBasicState points).currentIdx + 1) < fuel
        show (AnimSegments.basic points).size - (1 + 1) < fuel
        simp only [AnimSegments.size]
        omega)
    simp only [hstep]
    rw [hdrain]
    simp only [hdraw]
    show AnimEvent.drew ::
        (List.replicate ((startBasicState points).segments.size -
          ((startBasicState points).currentIdx + 1)) AnimEvent.drew ++
          [AnimEvent.completed]) =
      List.replicate (points.length - 1) AnimEvent.drew ++ [AnimEvent.completed]
    show AnimEvent.drew ::
        (List.replicate ((AnimSegments.basic points).size - (1 + 1)) AnimEvent.drew ++
          [AnimEvent.completed]) =
      List.replicate (points.length - 1) AnimEvent.drew ++ [AnimEvent.completed]
    simp only [AnimSegments.size]
    rw [show points.length - 1 = (points.length - 2) + 1 from by omega]
    rw [List.replicate_succ]
    simp

set_option maxRecDepth 4000 in
/-- Counterexample to C5 as stated: in basic mode the count passed to
`_calcDelay` is the number of points, not the number of adjacent-point
pairs.  With the code's constants (`msPerPoint = 200`,
`maxTotalMs = 60000`) a 301-point basic animation stores a delay of
`floor(60000/301) = 199` ms, while the claim's formula over
`segments = 300` gives `floor(60000/300) = 200` ms. -/
theorem basicDelay_claim_counterexample :
    (startBasicState (List.replicate 301 (⟨0, 0, 0⟩ : Point))).delayMs ≠
      max (min (((List.replicate 301 (⟨0, 0, 0⟩ : Point)).length - 1) *
          ANIMATION_MS_PER_POINT) ANIMATION_MAX_TOTAL_MS /
        ((List.replicate 301 (⟨0, 0, 0⟩ : Point)).length - 1)) 10 := by
  decide

/-- C5 (amended).  The per-segment delay is
`max(floor(min(N*msPerPoint, maxTotalMs)/N), 10)` where `N` is the
count handed to `_calcDelay`: the number of points in basic mode and
the number of adjacent-point-pair segments in rich mode.  A basic
animation over a non-empty point list performs exactly
`points.length - 1` scheduled segment draws and then fires `onComplete`
exactly once, after the last draw (for 10 points: 9 draws, then one
completion). -/
theorem animationDelay_and_trace_spec :
    (∀ (s0 : EngineState) (points : List Point) (fuel : ℕ),
      points ≠ [] → points.length ≤ fuel →
      (startBasicState points).delayMs =
        max (min (points.length * ANIMATION_MS_PER_POINT) ANIMATION_MAX_TOTAL_MS /
          points.length) 10 ∧
      (addBasicLayerAnimated s0 points fuel).2 =
        List.replicate (points.length - 1) AnimEvent.drew ++ [AnimEvent.completed]) ∧
    (∀ ridesData : List Ride,
      (startRichState ridesData).delayMs =
        max (min ((richSegmentsOf ridesData).length * ANIMATION_MS_PER_POINT)
          ANIMATION_MAX_TOTAL_MS / (richSegmentsOf ridesData).length) 10) := by
  constructor
  · intro s0 points fuel hne hfuel
    exact ⟨rfl, addBasicLayerAnimated_events s0 points fuel hne hfuel⟩
  · intro ridesData
    rfl

theorem animationDelay_and_trace_spec_witness :
    ((startBasicState (List.replicate 10 (⟨45, -73, 100⟩ : Point))).delayMs =
      max (min ((List.replicate 10 (⟨45, -73, 100⟩ : Point)).length *
          ANIMATION_MS_PER_POINT) ANIMATION_MAX_TOTAL_MS /
        (List.replicate 10 (⟨45, -73, 100⟩ : Point)).length) 10 ∧
     (addBasicLayerAnimated
        ⟨false, false, false, false, .basic [], 0, 0, [], [], 0, 0, 50⟩
        (List.replicate 10 (⟨45, -73, 100⟩ : Point)) 12).2 =
      List.replicate ((List.replicate 10 (⟨45, -73, 100⟩ : Point)).length - 1)
        AnimEvent.drew ++ [AnimEvent.completed]) ∧
    (startRichState [⟨[⟨45, -73, 10⟩, ⟨45.1, -73.1, 70⟩, ⟨45.2, -73.2, 130⟩]⟩]).delayMs =
      max (min ((richSegmentsOf
          [⟨[⟨45, -73, 10⟩, ⟨45.1, -73.1, 70⟩, ⟨45.2, -73.2, 130⟩]⟩]).length *
          ANIMATION_MS_PER_POINT) ANIMATION_MAX_TOTAL_MS /
        (richSegmentsOf
          [⟨[⟨45, -73, 10⟩, ⟨45.1, -73.1, 70⟩, ⟨45.2, -73.2, 130⟩]⟩]).length) 10 :=
  ⟨animationDelay_and_trace_spec.1 _ _ 12 (by simp) (by simp),
   animationDelay_and_trace_spec.2 _⟩

end IphoneTrack
